import Mathlib

/-!
Shallow embedding of `meshmagick/mesh.py` (class `Mesh`).

Modelling conventions:
* Vertex coordinates are idealized as rationals (`ℚ`); geometric quantities
  computed by the source through `numpy.linalg.norm` (square roots) live in `ℝ`.
* A face is the source's fixed 4-slot row of vertex indices
  (a triangle repeats its first index in the last slot).
* The per-instance `__internals__` dict is modelled by the structure `Cache`.
  Keys that the source always inserts and deletes together are grouped into
  a single `Option` field:
  - `faces_areas` / `faces_normals` / `faces_centers` (inserted together in
    `_faces_properties`, deleted together in `_remove_faces_properties`);
  - `triangles_ids` / `quadrangles_ids` (inserted together in
    `_triangles_quadrangles`, the source tests the key `triangles_ids` for both);
  - `v_v` / `v_f` / `f_f` / `boundaries` (inserted together in `_connectivity`,
    deleted together in `_remove_connectivity`).
* Python set iteration order is unspecified; wherever the source iterates a
  set or lists a set intersection we use the canonical ascending order.
* Out-of-range indexing (which would raise in numpy) is totalized with `getD`
  defaults; the claims are stated and used on well-formed inputs.
-/

set_option maxHeartbeats 1000000

/-- A 3-component coordinate vector over `α` (one row of a numpy `(n, 3)` array). -/
structure V3 (α : Type) where
  x : α
  y : α
  z : α
  deriving DecidableEq, Repr

namespace V3

def add {α : Type} [Add α] (u v : V3 α) : V3 α := ⟨u.x + v.x, u.y + v.y, u.z + v.z⟩

def sub {α : Type} [Sub α] (u v : V3 α) : V3 α := ⟨u.x - v.x, u.y - v.y, u.z - v.z⟩

def smul {α : Type} [Mul α] (a : α) (v : V3 α) : V3 α := ⟨a * v.x, a * v.y, a * v.z⟩

def neg {α : Type} [Neg α] (v : V3 α) : V3 α := ⟨-v.x, -v.y, -v.z⟩

/-- Elementwise product (numpy `*` on `(n,3)` arrays). -/
def hmul {α : Type} [Mul α] (u v : V3 α) : V3 α := ⟨u.x * v.x, u.y * v.y, u.z * v.z⟩

def dot {α : Type} [Mul α] [Add α] (u v : V3 α) : α := u.x * v.x + u.y * v.y + u.z * v.z

def cross {α : Type} [Mul α] [Sub α] (u v : V3 α) : V3 α :=
  ⟨u.y * v.z - u.z * v.y, u.z * v.x - u.x * v.z, u.x * v.y - u.y * v.x⟩

/-- Cast a rational coordinate vector into the reals. -/
def toR (v : V3 ℚ) : V3 ℝ := ⟨(v.x : ℝ), (v.y : ℝ), (v.z : ℝ)⟩

/-- The `k`-th coordinate of a vector, `k < 3`. -/
def comp {α : Type} (v : V3 α) (k : Fin 3) : α :=
  if k = 0 then v.x else if k = 1 then v.y else v.z

instance {α : Type} [Zero α] : Inhabited (V3 α) := ⟨⟨0, 0, 0⟩⟩

instance {α : Type} [Add α] : Add (V3 α) := ⟨add⟩
instance {α : Type} [Sub α] : Sub (V3 α) := ⟨sub⟩
instance {α : Type} [Neg α] : Neg (V3 α) := ⟨neg⟩

theorem ext_iff {α : Type} (u v : V3 α) : u = v ↔ u.x = v.x ∧ u.y = v.y ∧ u.z = v.z := by
  constructor
  · intro h; subst h; exact ⟨rfl, rfl, rfl⟩
  · intro ⟨hx, hy, hz⟩; cases u; cases v; simp_all

theorem sub_def {α : Type} [Sub α] (u v : V3 α) :
    u - v = ⟨u.x - v.x, u.y - v.y, u.z - v.z⟩ := rfl

theorem add_def {α : Type} [Add α] (u v : V3 α) :
    u + v = ⟨u.x + v.x, u.y + v.y, u.z + v.z⟩ := rfl

end V3

/-- `numpy.linalg.norm` of a 3-vector: the Euclidean norm. -/
noncomputable def rnorm (v : V3 ℝ) : ℝ := Real.sqrt (V3.dot v v)

/-- One face row of the `(nf, 4)` connectivity array: 4 vertex-index slots. -/
structure Face where
  s0 : ℕ
  s1 : ℕ
  s2 : ℕ
  s3 : ℕ
  deriving DecidableEq, Repr

namespace Face

instance : Inhabited Face := ⟨⟨0, 0, 0, 0⟩⟩

/-- `face[0] == face[-1]`: the triangle test of the source. -/
def isTriangle (f : Face) : Bool := f.s0 == f.s3

/-- `np.fliplr` applied to one face row: reverse the 4 slots. -/
def rev (f : Face) : Face := ⟨f.s3, f.s2, f.s1, f.s0⟩

/-- The working vertex list of a face: 3 entries for a triangle, 4 for a quadrangle
(the `face_w` trimming of the source). -/
def faceW (f : Face) : List ℕ :=
  if f.isTriangle then [f.s0, f.s1, f.s2] else [f.s0, f.s1, f.s2, f.s3]

/-- The set of vertex indices of a face (`set(face)` in the source). -/
def vset (f : Face) : Finset ℕ := {f.s0, f.s1, f.s2, f.s3}

end Face

/-- Rows `0..14` of a per-face surface-integral column (the source's 15-row array). -/
def SInt : Type := Fin 15 → ℝ

instance : Add SInt := ⟨fun a b i => a i + b i⟩

/-- The grouped cached values `faces_areas` / `faces_normals` / `faces_centers`. -/
structure FacesProps where
  areas : List ℝ
  normals : List (V3 ℝ)
  centers : List (V3 ℝ)

/-- The grouped cached connectivity aggregates `v_v` / `v_f` / `f_f` / `boundaries`. -/
structure Conn where
  vv : List (Finset ℕ)
  vf : List (Finset ℕ)
  ff : List (Finset ℕ)
  boundaries : List (List ℕ)
  deriving DecidableEq

/-- The `__internals__` dict of a mesh instance. -/
structure Cache where
  facesProps : Option FacesProps
  facesRadiuses : Option (List ℝ)
  tq : Option (List ℕ × List ℕ)
  conn : Option Conn
  surfaceIntegrals : Option (List SInt)

namespace Cache

/-- `__internals__ = dict()` / `__internals__.clear()`. -/
def empty : Cache := ⟨none, none, none, none, none⟩

end Cache

/-- The state of a `Mesh` instance: vertex array, face array and internals dict. -/
structure MState where
  vertices : List (V3 ℚ)
  faces : List Face
  cache : Cache

namespace Mesh

/-- `Mesh.nb_vertices`. -/
def nb_vertices (s : MState) : ℕ := s.vertices.length

/-- `Mesh.nb_faces`. -/
def nb_faces (s : MState) : ℕ := s.faces.length

/-- `np.where(faces[:, 0] == faces[:, -1])[0]`: indices of triangle-shaped faces,
in ascending order. -/
def trianglesIds (faces : List Face) : List ℕ :=
  (List.range faces.length).filter (fun i => (faces.getD i default).isTriangle)

/-- `np.where(invert(triangle_mask))[0]`: indices of quadrangle-shaped faces. -/
def quadranglesIds (faces : List Face) : List ℕ :=
  (List.range faces.length).filter (fun i => !(faces.getD i default).isTriangle)

/-- `_triangles_quadrangles` followed by a read: the cached pair
`(triangles_ids, quadrangles_ids)`, computed if absent (property reads
`triangles_ids` / `quadrangles_ids` / `nb_triangles` / `nb_quadrangles`). -/
def readTQ (s : MState) : (List ℕ × List ℕ) × MState :=
  match s.cache.tq with
  | some v => (v, s)
  | none =>
      let v := (trianglesIds s.faces, quadranglesIds s.faces)
      (v, { s with cache := { s.cache with tq := some v } })

/-- `Mesh.nb_triangles`: length of the cached (or freshly computed) `triangles_ids`. -/
def nb_triangles (s : MState) : ℕ := (readTQ s).1.1.length

/-- `Mesh.nb_quadrangles`: length of the cached (or freshly computed) `quadrangles_ids`. -/
def nb_quadrangles (s : MState) : ℕ := (readTQ s).1.2.length

/-- The geometry (area, unit normal, center) the source's `_faces_properties`
assigns to one triangle-shaped face row. -/
noncomputable def triProps (verts : List (V3 ℚ)) (f : Face) : ℝ × V3 ℝ × V3 ℝ :=
  let v0 := (verts.getD f.s0 default).toR
  let v1 := (verts.getD f.s1 default).toR
  let v2 := (verts.getD f.s2 default).toR
  let n := V3.cross (v1 - v0) (v2 - v0)
  let a := rnorm n
  (a / 2, V3.smul (1 / a) n, V3.smul (1 / 3) (v0 + v1 + v2))

/-- The geometry (area, unit normal, center) the source's `_faces_properties`
assigns to one quadrangle-shaped face row. -/
noncomputable def quadProps (verts : List (V3 ℚ)) (f : Face) : ℝ × V3 ℝ × V3 ℝ :=
  let v0 := (verts.getD f.s0 default).toR
  let v1 := (verts.getD f.s1 default).toR
  let v2 := (verts.getD f.s2 default).toR
  let v3 := (verts.getD f.s3 default).toR
  let n := V3.cross (v2 - v0) (v3 - v1)
  let a1 := rnorm (V3.cross (v1 - v0) (v2 - v0)) * (1 / 2)
  let a2 := rnorm (V3.cross (v3 - v0) (v2 - v0)) * (1 / 2)
  let c1 := V3.smul (1 / 3) (v0 + v1 + v2)
  let c2 := V3.smul (1 / 3) (v2 + v3 + v0)
  (a1 + a2,
   V3.smul (1 / rnorm n) n,
   V3.smul (1 / (a1 + a2)) (V3.smul a1 c1 + V3.smul a2 c2))

/-- Per-face geometry of `_faces_properties` (the source fills the three arrays
face by face, triangles with the triangle formulas, quadrangles with the split
formulas). -/
noncomputable def faceProps (verts : List (V3 ℚ)) (f : Face) : ℝ × V3 ℝ × V3 ℝ :=
  if f.isTriangle then triProps verts f else quadProps verts f

/-- `_faces_properties`: the three arrays `faces_areas`, `faces_normals`,
`faces_centers` computed from the current vertex and face arrays. -/
noncomputable def computeFacesProps (verts : List (V3 ℚ)) (faces : List Face) : FacesProps :=
  { areas := faces.map (fun f => (faceProps verts f).1)
    normals := faces.map (fun f => (faceProps verts f).2.1)
    centers := faces.map (fun f => (faceProps verts f).2.2) }

/-- `_has_faces_properties`. -/
def hasFacesProperties (s : MState) : Bool := s.cache.facesProps.isSome

/-- `has_surface_integrals`. -/
def hasSurfaceIntegrals (s : MState) : Bool := s.cache.surfaceIntegrals.isSome

/-- `_remove_faces_properties`: deletes the three face-geometry keys when present,
and also deletes `surface_integrals` when present. -/
def removeFacesProperties (s : MState) : MState :=
  { s with cache := { s.cache with facesProps := none, surfaceIntegrals := none } }

/-- `_remove_surface_integrals`. -/
def removeSurfaceIntegrals (s : MState) : MState :=
  { s with cache := { s.cache with surfaceIntegrals := none } }

/-- Reading `faces_areas` / `faces_normals` / `faces_centers`: the cached triple,
computed (and memoized) if absent.  The source's `_faces_properties` reads
`triangles_ids` / `quadrangles_ids`, memoizing the classification as well. -/
noncomputable def readFacesProps (s : MState) : FacesProps × MState :=
  match s.cache.facesProps with
  | some v => (v, s)
  | none =>
      let s1 := (readTQ s).2
      let v := computeFacesProps s.vertices s.faces
      (v, { s1 with cache := { s1.cache with facesProps := some v } })

/-- `_compute_triangles_integrals` for one triangle `(p0, p1, p2)`: the 15
closed-form polynomial surface integrals of the source, rows `0..14`. -/
noncomputable def triIntegrals (p0 p1 p2 : V3 ℝ) : SInt :=
  let t0 := p0 + p1
  let f1 := t0 + p2
  let t1 := V3.hmul p0 p0
  let t2 := t1 + V3.hmul p1 t0
  let f2 := t2 + V3.hmul p2 f1
  let f3 := V3.hmul p0 t1 + V3.hmul p1 t2 + V3.hmul p2 f2
  let g0 := f2 + V3.hmul p0 (f1 + p0)
  let g1 := f2 + V3.hmul p1 (f1 + p1)
  let g2 := f2 + V3.hmul p2 (f1 + p2)
  let e1 := p1 - p0
  let e2 := p2 - p0
  let delta := rnorm (V3.cross e1 e2)
  fun i =>
    match i with
    | 0 => delta * f1.x / 6
    | 1 => delta * f1.y / 6
    | 2 => delta * f1.z / 6
    | 3 => delta * (6 * p0.y * p0.z + 3 * (p1.y * p1.z + p2.y * p2.z)
             - p0.y * f1.z - p0.z * f1.y) / 12
    | 4 => delta * (6 * p0.x * p0.z + 3 * (p1.x * p1.z + p2.x * p2.z)
             - p0.x * f1.z - p0.z * f1.x) / 12
    | 5 => delta * (6 * p0.x * p0.y + 3 * (p1.x * p1.y + p2.x * p2.y)
             - p0.x * f1.y - p0.y * f1.x) / 12
    | 6 => delta * f2.x / 12
    | 7 => delta * f2.y / 12
    | 8 => delta * f2.z / 12
    | 9 => delta * f3.x / 20
    | 10 => delta * f3.y / 20
    | 11 => delta * f3.z / 20
    | 12 => delta * (p0.y * g0.x + p1.y * g1.x + p2.y * g2.x) / 60
    | 13 => delta * (p0.z * g0.y + p1.z * g1.y + p2.z * g2.y) / 60
    | 14 => delta * (p0.x * g0.z + p1.x * g1.z + p2.x * g2.z) / 60

/-- `_compute_faces_integrals`, per face: a triangle contributes its own
integrals; a quadrangle is split into the triangles `(0,1,2)` and `(0,2,3)`
and the two contributions are summed. -/
noncomputable def faceIntegrals (verts : List (V3 ℚ)) (f : Face) : SInt :=
  let v0 := (verts.getD f.s0 default).toR
  let v1 := (verts.getD f.s1 default).toR
  let v2 := (verts.getD f.s2 default).toR
  let v3 := (verts.getD f.s3 default).toR
  if f.isTriangle then triIntegrals v0 v1 v2
  else triIntegrals v0 v1 v2 + triIntegrals v0 v2 v3

/-- `_compute_faces_integrals`: the per-face 15-row surface-integral array. -/
noncomputable def computeSurfaceIntegrals (verts : List (V3 ℚ)) (faces : List Face) :
    List SInt :=
  faces.map (faceIntegrals verts)

/-- `get_surface_integrals`: the cached integrals, computed (and memoized) if
absent.  `_compute_faces_integrals` reads `triangles_ids` / `quadrangles_ids`,
memoizing the classification as well. -/
noncomputable def readSurfaceIntegrals (s : MState) : List SInt × MState :=
  match s.cache.surfaceIntegrals with
  | some v => (v, s)
  | none =>
      let s1 := (readTQ s).2
      let v := computeSurfaceIntegrals s.vertices s.faces
      (v, { s1 with cache := { s1.cache with surfaceIntegrals := some v } })

/-- `_compute_volume` on a fresh mesh given by its vertex and face arrays:
`(normals.T * sigma_0_2).sum() / 3.` — the sum over the three coordinates and
all faces of `normals[f][k] * surface_integrals[k][f]`, divided by 3. -/
noncomputable def volume (verts : List (V3 ℚ)) (faces : List Face) : ℝ :=
  (∑ k : Fin 3, ∑ f ∈ Finset.range faces.length,
      V3.comp ((computeFacesProps verts faces).normals.getD f default) k
        * (computeSurfaceIntegrals verts faces).getD f (fun _ => 0)
            (⟨k.val, by omega⟩ : Fin 15)) / 3

/-- `vertices` property setter: replaces the vertex array and clears the whole
`__internals__` dict. -/
def setVertices (s : MState) (v : List (V3 ℚ)) : MState :=
  { vertices := v, faces := s.faces, cache := Cache.empty }

/-- `Mesh.translate(t)`: adds the three components of `t` to the vertex
coordinates **through the `vertices` property setter** (which clears the whole
cache), then runs the two (now ineffective) cache-update blocks of the source. -/
def translate (s : MState) (t : V3 ℚ) : MState :=
  let v := s.vertices.map (fun p => p + t)
  let s1 := setVertices s v
  -- `if self._has_faces_properties(): ...shift cached faces_centers by t`
  let s2 :=
    if hasFacesProperties s1 then
      { s1 with cache := { s1.cache with
          facesProps := s1.cache.facesProps.map (fun fp =>
            { fp with centers := fp.centers.map (fun c => c + t.toR) }) } }
    else s1
  -- `if self.has_surface_integrals(): self._remove_surface_integrals()`
  if hasSurfaceIntegrals s2 then removeSurfaceIntegrals s2 else s2

/-- `Mesh.scale(alpha)`: `assert 0 < alpha`; multiplies every vertex coordinate
by `alpha` (direct `_vertices` assignment, cache kept), then removes the face
properties only when they are present. -/
def scale (s : MState) (alpha : ℚ) : Except String MState :=
  if 0 < alpha then
    let s1 := { s with vertices := s.vertices.map (fun p => V3.smul alpha p) }
    .ok (if hasFacesProperties s1 then removeFacesProperties s1 else s1)
  else .error "assert 0 < alpha"

/-- `Mesh.scalex(alpha)` (the `scaley` / `scalez` bodies are identical up to the
coordinate): scales one coordinate, then removes the face properties only when
they are present. -/
def scalex (s : MState) (alpha : ℚ) : Except String MState :=
  if 0 < alpha then
    let s1 := { s with vertices := s.vertices.map (fun p => ⟨alpha * p.x, p.y, p.z⟩) }
    .ok (if hasFacesProperties s1 then removeFacesProperties s1 else s1)
  else .error "assert 0 < alpha"

/-- `Mesh.flip_normals`: reverses every face row (`np.fliplr`), negates the
cached `faces_normals` when present, and removes the cached surface integrals. -/
def flipNormals (s : MState) : MState :=
  let s1 := { s with faces := s.faces.map Face.rev }
  let s2 :=
    if hasFacesProperties s1 then
      { s1 with cache := { s1.cache with
          facesProps := s1.cache.facesProps.map (fun fp =>
            { fp with normals := fp.normals.map V3.neg }) } }
    else s1
  if hasSurfaceIntegrals s2 then removeSurfaceIntegrals s2 else s2

/-- The plane collaborator: unit normal and scalar offset `c`. -/
structure MPlane where
  normal : V3 ℚ
  c : ℚ

/-- `Mesh.mirror(plane)`: `v' = v - 2*(v·n - c)*n` on every vertex, then
`flip_normals()`, then `__internals__.clear()`. -/
def mirror (s : MState) (p : MPlane) : MState :=
  let s1 := { s with vertices := s.vertices.map (fun v =>
      v - V3.smul (2 * (V3.dot v p.normal - p.c)) p.normal) }
  let s2 := flipNormals s1
  { s2 with cache := Cache.empty }

/-- `Mesh.triangulate_quadrangles`: reads `quadrangles_ids` (cached or computed),
rewrites each quadrangle row `(q0,q1,q2,q3)` in place to the triangle
`(q0,q2,q3,q0)`, appends one new triangle `(q0,q1,q2,q0)` per quadrangle after
the existing faces, clears the whole cache, and stores the new face array. -/
def triangulateQuadrangles (s : MState) : MState :=
  let qids := (readTQ s).1.2
  let newFaces := qids.map (fun i =>
    let q := s.faces.getD i default
    Face.mk q.s0 q.s1 q.s2 q.s0)
  let faces2 := (List.range s.faces.length).map (fun i =>
    let q := s.faces.getD i default
    if i ∈ qids then Face.mk q.s0 q.s2 q.s3 q.s0 else q)
  { vertices := s.vertices, faces := faces2 ++ newFaces, cache := Cache.empty }

/-- The vertex-usage mask of `extract_faces`: `vertices_mask[faces[ids].flatten()] = True`. -/
def extractMask (faces : List Face) (ids : List ℕ) (v : ℕ) : Bool :=
  ids.any (fun i =>
    let f := faces.getD i default
    v == f.s0 || v == f.s1 || v == f.s2 || v == f.s3)

/-- `id_v = np.arange(nv)[vertices_mask]`: kept old vertex indices, ascending. -/
def extractIdV (s : MState) (ids : List ℕ) : List ℕ :=
  (List.range (nb_vertices s)).filter (extractMask s.faces ids)

/-- `new_id__v`: `np.arange(nv)` overwritten at the kept indices with their rank. -/
def extractNewId (s : MState) (ids : List ℕ) (v : ℕ) : ℕ :=
  if extractMask s.faces ids v then (extractIdV s ids).indexOf v else v

/-- `Mesh.extract_faces(id_faces_to_extract, return_index)`: builds a new mesh
from the selected faces with the referenced vertices compacted and renumbered;
the second component is the `id_v` array returned when `return_index=True`. -/
def extractFaces (s : MState) (ids : List ℕ) : MState × List ℕ :=
  let idV := extractIdV s ids
  let vExtracted := idV.map (fun i => s.vertices.getD i default)
  let facesExtracted := ids.map (fun i =>
    let f := s.faces.getD i default
    Face.mk (extractNewId s ids f.s0) (extractNewId s ids f.s1)
            (extractNewId s ids f.s2) (extractNewId s ids f.s3))
  (⟨vExtracted, facesExtracted, Cache.empty⟩, idV)

/-- Update the set stored at index `i` of a list of sets (mutation of one
entry of the `v_v` / `v_f` / `f_f` dicts); out-of-range indices are ignored. -/
def updSet (l : List (Finset ℕ)) (i : ℕ) (g : Finset ℕ → Finset ℕ) : List (Finset ℕ) :=
  l.set i (g (l.getD i ∅))

/-- One face's contribution to the `v_v` / `v_f` dicts: for each vertex of the
(trimmed) face cycle, record the incident face and the edge to the cyclic
predecessor in both directions. -/
def addFaceConn (iface : ℕ) (f : Face)
    (st : List (Finset ℕ) × List (Finset ℕ)) : List (Finset ℕ) × List (Finset ℕ) :=
  let fw := f.faceW
  let n := fw.length
  (List.range n).foldl (fun st idx =>
    let iV := fw.getD idx 0
    let prev := fw.getD ((idx + n - 1) % n) 0
    (updSet (updSet st.1 prev (insert iV)) iV (insert prev),
     updSet st.2 iV (insert iface))) st

/-- The `v_v` and `v_f` dicts of `_connectivity`, built in one pass over faces. -/
def buildVVVF (nv : ℕ) (faces : List Face) : List (Finset ℕ) × List (Finset ℕ) :=
  faces.enum.foldl (fun st p => addFaceConn p.1 p.2 st)
    (List.replicate nv ∅, List.replicate nv ∅)

/-- The error message of the non-manifold branch of `_connectivity`. -/
def connErrMsg : String := "Unexpected error while computing mesh connectivities"

/-- The elements of a finite set of naturals in ascending order (the canonical
iteration order we fix for Python's unspecified set iteration). -/
def fsortAsc (t : Finset ℕ) : List ℕ :=
  (List.range (t.sup id + 1)).filter (fun x => x ∈ t)

/-- Insertion into the `boundary_edges` dict: replace in place when the key is
present (Python dicts keep the original position), append otherwise. -/
def dinsert (l : List (ℕ × ℕ)) (k v : ℕ) : List (ℕ × ℕ) :=
  match l with
  | [] => [(k, v)]
  | (a, b) :: t => if a = k then (k, v) :: t else (a, b) :: dinsert t k v

/-- The directed boundary edge recorded for a boundary face `e` and the two
adjacent vertices `i`, `j`: direction determined by whether the two positions
of `i`/`j` in the face's stored cycle are consecutive. -/
def boundaryDirected (faces : List Face) (e i j : ℕ) : ℕ × ℕ :=
  let bf := (faces.getD e default).faceW
  let ids := (List.range bf.length).filter (fun k => bf.getD k 0 == i || bf.getD k 0 == j)
  let id0 := ids.getD 0 0
  let id1 := ids.getD 1 0
  if id1 ≠ id0 + 1 then (bf.getD id0 0, bf.getD id1 0) else (bf.getD id1 0, bf.getD id0 0)

/-- The body of the `f_f` loop of `_connectivity` for one `(ivertex, iadj_v)`
pair: an intersection of 2 incident faces records a symmetric adjacency, of 1
records a directed boundary edge, anything else is the fatal non-manifold
error. -/
def ffStep (vf : List (Finset ℕ)) (faces : List Face)
    (st : List (Finset ℕ) × List (ℕ × ℕ)) (p : ℕ × ℕ) :
    Except String (List (Finset ℕ) × List (ℕ × ℕ)) :=
  let inter := (vf.getD p.1 ∅) ∩ (vf.getD p.2 ∅)
  if inter.card = 2 then
    let l := fsortAsc inter
    let a := l.getD 0 0
    let b := l.getD 1 0
    .ok (updSet (updSet st.1 a (insert b)) b (insert a), st.2)
  else if inter.card = 1 then
    let e := (fsortAsc inter).getD 0 0
    let ot := boundaryDirected faces e p.1 p.2
    .ok (st.1, dinsert st.2 ot.1 ot.2)
  else .error connErrMsg

/-- The `(ivertex, iadj_v)` pairs the `f_f` loop visits, in iteration order. -/
def pairList (nv : ℕ) (vv : List (Finset ℕ)) : List (ℕ × ℕ) :=
  (List.range nv).flatMap (fun i => (fsortAsc (vv.getD i ∅)).map (fun j => (i, j)))

/-- Folding `ffStep` over the pair list; the first non-manifold pair aborts. -/
def foldPairs (vf : List (Finset ℕ)) (faces : List Face) :
    List (ℕ × ℕ) → List (Finset ℕ) × List (ℕ × ℕ) →
    Except String (List (Finset ℕ) × List (ℕ × ℕ))
  | [], st => .ok st
  | p :: rest, st =>
      match ffStep vf faces st p with
      | .ok st1 => foldPairs vf faces rest st1
      | .error e => .error e

/-- `boundary_edges.pop(i_v0)`: remove the entry with the given key, returning
its value and the remaining dict. -/
def popKey : List (ℕ × ℕ) → ℕ → Option (ℕ × List (ℕ × ℕ))
  | [], _ => none
  | (a, b) :: t, k =>
      if a = k then some (b, t)
      else
        match popKey t k with
        | none => none
        | some (v, t1) => some (v, (a, b) :: t1)

/-- The inner boundary walk: follow directed edges from the current vertex
until no continuation exists, accumulating the chain. -/
def walkOne : ℕ → List (ℕ × ℕ) → ℕ → List ℕ → List (ℕ × ℕ) × List ℕ
  | 0, be, _, acc => (be, acc)
  | fuel + 1, be, cur, acc =>
      match popKey be cur with
      | none => (be, acc)
      | some (v, be1) => walkOne fuel be1 v (acc ++ [v])

/-- The outer boundary loop of `_connectivity`: `popitem` an arbitrary (last)
remaining directed edge, walk its chain, keep the chain only when it closes
(an open chain is reported as a warning and dropped). -/
def walkAll : ℕ → List (ℕ × ℕ) → List (List ℕ) → List (List ℕ)
  | 0, _, acc => acc
  | fuel + 1, be, acc =>
      match be.getLast? with
      | none => acc
      | some (k, v) =>
          let be1 := be.dropLast
          let r := walkOne be1.length be1 v [k, v]
          walkAll fuel r.1 (if r.2.getLast? = some k then acc ++ [r.2] else acc)

/-- `_connectivity` as a pure computation over the vertex count and face array:
either the four connectivity aggregates or the fatal non-manifold error. -/
def computeConnectivity (nv : ℕ) (faces : List Face) : Except String Conn :=
  let vvvf := buildVVVF nv faces
  let pairs := pairList nv vvvf.1
  match foldPairs vvvf.2 faces pairs (List.replicate faces.length ∅, []) with
  | .error e => .error e
  | .ok r => .ok ⟨vvvf.1, vvvf.2, r.1, walkAll (r.2.length + 1) r.2 []⟩


/-- The `_connectivity` method as a state transformer: `__internals__.update`
runs only after the whole computation succeeded; a raised error leaves the
instance exactly as it was. -/
def connectivityMethod (s : MState) : MState × Option String :=
  match computeConnectivity (nb_vertices s) s.faces with
  | .ok c => ({ s with cache := { s.cache with conn := some c } }, none)
  | .error e => (s, some e)

/-- Reading `vv` / `vf` / `ff` / `boundaries`: the cached aggregates, computed
(and memoized) if absent; `none` when `_connectivity` raises. -/
def readConn (s : MState) : Option (Conn × MState) :=
  match s.cache.conn with
  | some c => some (c, s)
  | none =>
      match computeConnectivity (nb_vertices s) s.faces with
      | .ok c => some (c, { s with cache := { s.cache with conn := some c } })
      | .error _ => none

/-- `remove_degenerated_faces(rtol)`: reads (and memoizes) the face areas,
keeps the faces whose area is not below `mean * rtol`, stores the face array,
then removes the face properties when present.  (The source asserts
`0 < rtol`; it is called with positive tolerances.) -/
noncomputable def removeDegeneratedFaces (s : MState) (rtol : ℝ) : MState :=
  let r := readFacesProps s
  let areas := r.1.areas
  let thr := areas.sum / (areas.length : ℝ) * rtol
  let faces2 := (List.range r.2.faces.length).filterMap (fun i =>
    if areas.getD i 0 < thr then none else some (r.2.faces.getD i default))
  let s2 := { r.2 with faces := faces2 }
  if hasFacesProperties s2 then removeFacesProperties s2 else s2


/-- The 4 slots of a face as a list. -/
def faceList (f : Face) : List ℕ := [f.s0, f.s1, f.s2, f.s3]

/-- `np.roll(l, -l.indexOf v)`: rotate the cycle so that `v` comes first. -/
def rotToFront (l : List ℕ) (v : ℕ) : List ℕ :=
  let k := l.indexOf v
  l.drop k ++ l.take k

/-- The winding test of `heal_normals`: with both cycles rotated to start at
`iv1`, the neighbor is traversing the shared edge in the same direction as the
current face (and must be flipped) iff the matching entry equals `iv2`. -/
def needsFlip (fw aw : List ℕ) (iv1 iv2 : ℕ) : Bool :=
  let faceRef := rotToFront fw iv1
  let adjRef := rotToFront aw iv1
  let probe :=
    if faceRef.getD 1 0 == iv2 then adjRef.getD 1 0
    else adjRef.getD (adjRef.length - 1) 0
  probe == iv2

/-- The mutable data of the flood fill: the face array, the (destructively
updated) `f_f` sets, the visited flags and the stack. -/
structure FloodSt where
  faces : List Face
  ff : List (Finset ℕ)
  vis : List Bool
  stack : List ℕ

/-- `np.where(np.logical_not(f_vis))[0][0]`: the first unvisited face, if any. -/
def firstFalse (l : List Bool) : Option ℕ :=
  (List.range l.length).find? (fun i => !(l.getD i true))

/-- Processing one face-adjacent neighbor during the flood: mark it visited,
remove the reverse adjacency edge, and when the shared edge is a proper
2-vertex edge flip the neighbor if its winding disagrees and push it; a shared
set of any other size is only warned about (visited mark and edge removal
persist). -/
def processNeighbor (tc : ℕ → ℕ) (iface : ℕ) (faceRow : Face)
    (st : FloodSt) (iadj : ℕ) : FloodSt :=
  if st.vis.getD iadj false then st
  else
    let vis := st.vis.set iadj true
    let ff := updSet st.ff iadj (fun t => t.erase iface)
    let adjRow := st.faces.getD iadj default
    let common := faceRow.vset ∩ adjRow.vset
    if common.card = 2 then
      let l := fsortAsc common
      let iv1 := l.getD 0 0
      let iv2 := l.getD 1 0
      let fw := (faceList faceRow).take (tc iface)
      let aw := (faceList adjRow).take (tc iadj)
      let faces :=
        if needsFlip fw aw iv1 iv2 then st.faces.set iadj adjRow.rev else st.faces
      { faces := faces, ff := ff, vis := vis, stack := iadj :: st.stack }
    else { st with ff := ff, vis := vis }

/-- The flood-fill loop of `heal_normals` (fuelled; every iteration either pops
the stack or visits a new face, so `2 * nb_faces + 2` steps always suffice). -/
def floodLoop (tc : ℕ → ℕ) : ℕ → FloodSt → List Face × List (Finset ℕ)
  | 0, st => (st.faces, st.ff)
  | fuel + 1, st =>
      match st.stack with
      | [] =>
          match firstFalse st.vis with
          | none => (st.faces, st.ff)
          | some i => floodLoop tc fuel { st with vis := st.vis.set i true, stack := [i] }
      | iface :: rest =>
          let faceRow := st.faces.getD iface default
          let neighbors := fsortAsc (st.ff.getD iface ∅)
          floodLoop tc fuel
            (neighbors.foldl (processNeighbor tc iface faceRow) { st with stack := rest })

/-- `np.max(vertices[:, 2])` over the rational vertex array. -/
def zmaxOf (l : List (V3 ℚ)) : ℚ := (l.map V3.z).foldl max (l.headD default).z

/-- The outward-orientation sanity vector of `heal_normals`:
`Σ_f (centers[f].z - zmax) * areas[f] * normals[f]`. -/
noncomputable def hsSum (fp : FacesProps) (zmax : ℚ) : V3 ℝ :=
  (List.range fp.areas.length).foldl (fun acc f =>
    acc + V3.smul (((fp.centers.getD f default).z - (zmax : ℝ)) * fp.areas.getD f 0)
      (fp.normals.getD f default)) ⟨0, 0, 0⟩


/-- `Mesh.heal_normals`: read (and memoize) the connectivity and the face
classification, flood-fill from face 0 flipping inconsistent neighbors while
destructively pruning the `f_f` sets held in the cache, store the re-wound
face array, run the outward check (possibly `flip_normals`) when the mesh is
closed, and finally remove the face properties when present.  A connectivity
error propagates, leaving the state unchanged. -/
noncomputable def healNormals (s : MState) : MState :=
  match readConn s with
  | none => s
  | some (conn, s1) =>
    let meshClosed := conn.boundaries.isEmpty
    let r := readTQ s1
    let s2 := r.2
    let tc : ℕ → ℕ := fun i => if i ∈ r.1.1 then 3 else 4
    let nf := s2.faces.length
    let st0 : FloodSt :=
      { faces := s2.faces, ff := conn.ff,
        vis := (List.replicate nf false).set 0 true, stack := [0] }
    let fr := floodLoop tc (2 * nf + 2) st0
    -- the flood mutated the set objects held in `__internals__['f_f']` in place
    let newConn : Conn := { conn with ff := fr.2 }
    let s3 : MState :=
      { s2 with faces := fr.1, cache := { s2.cache with conn := some newConn } }
    let s4 :=
      if meshClosed then
        let zmax := zmaxOf s3.vertices
        let rp := readFacesProps s3
        let hs := hsSum rp.1 zmax
        if hs.z < 0 then flipNormals rp.2 else rp.2
      else s3
    if hasFacesProperties s4 then removeFacesProperties s4 else s4

end Mesh

section Examples

/-- A one-triangle mesh (unit right triangle in the `z = 0` plane), fresh cache. -/
def exTri : MState :=
  { vertices := [⟨0, 0, 0⟩, ⟨1, 0, 0⟩, ⟨0, 1, 0⟩]
    faces := [⟨0, 1, 2, 0⟩]
    cache := Cache.empty }

/-- A one-quadrangle mesh: the unit square in the `z = 0` plane, fresh cache. -/
def exQuad : MState :=
  { vertices := [⟨0, 0, 0⟩, ⟨1, 0, 0⟩, ⟨1, 1, 0⟩, ⟨0, 1, 0⟩]
    faces := [⟨0, 1, 2, 3⟩]
    cache := Cache.empty }

/-- Four collinear vertices and one (degenerate) triangle face referencing
vertices 1 and 3 only — vertices 0 and 2 are unused. -/
def exM4 : MState :=
  { vertices := [⟨0, 0, 0⟩, ⟨1, 0, 0⟩, ⟨2, 0, 0⟩, ⟨3, 0, 0⟩]
    faces := [⟨1, 3, 3, 1⟩]
    cache := Cache.empty }

/-- An open two-triangle strip: faces `(0,1,2)` and `(1,3,2)` share the edge
`(1, 2)` with consistent winding; the mesh has one boundary loop. -/
def exStrip : MState :=
  { vertices := [⟨0, 0, 0⟩, ⟨1, 0, 0⟩, ⟨0, 1, 0⟩, ⟨1, 1, 0⟩]
    faces := [⟨0, 1, 2, 0⟩, ⟨1, 3, 2, 1⟩]
    cache := Cache.empty }

/-- Three triangles all sharing the edge `(0, 1)`: a non-manifold mesh. -/
def exNonManifold : MState :=
  { vertices := [⟨0, 0, 0⟩, ⟨1, 0, 0⟩, ⟨0, 1, 0⟩, ⟨0, 0, 1⟩, ⟨0, 1, 1⟩]
    faces := [⟨0, 1, 2, 0⟩, ⟨0, 1, 3, 0⟩, ⟨0, 1, 4, 0⟩]
    cache := Cache.empty }

/-- Three triangle-shaped faces in the `z = 0` plane; face 0 is degenerate
(all three vertices coincide, zero area), faces 1 and 2 have area `1/2`. -/
def exDeg : MState :=
  { vertices := [⟨0, 0, 0⟩, ⟨1, 0, 0⟩, ⟨0, 1, 0⟩]
    faces := [⟨0, 0, 0, 0⟩, ⟨0, 1, 2, 0⟩, ⟨0, 2, 1, 0⟩]
    cache := Cache.empty }

end Examples

open Mesh

/-- **C1.** The spec says `translate(t)` keeps the cached face geometry,
shifting only the centers, and invalidates only the surface integrals.  The
code's `translate` stores the translated vertices through the `vertices`
property setter, which clears the whole `__internals__` dict first, so the
subsequent cached-centers update block is dead: after `translate` on a mesh
whose face geometry was cached, the face-geometry cache (and the face
classification) is empty, while the vertices are correctly translated. -/
theorem translate_clears_whole_cache :
    hasFacesProperties (readFacesProps exTri).2 = true ∧
    (translate (readFacesProps exTri).2 ⟨1, 2, 3⟩).cache.facesProps = none ∧
    (translate (readFacesProps exTri).2 ⟨1, 2, 3⟩).cache.tq = none ∧
    (translate (readFacesProps exTri).2 ⟨1, 2, 3⟩).vertices
      = exTri.vertices.map (fun p => p + (⟨1, 2, 3⟩ : V3 ℚ)) :=
  ⟨rfl, rfl, rfl, rfl⟩

/-- **C2.** The spec says any vertex-mutating operation removes the cached
surface integrals unconditionally.  In `scale`, the removal
(`_remove_faces_properties`, which also deletes `surface_integrals`) is only
run when the face-geometry triple is cached: on a mesh whose surface
integrals are cached but whose face geometry is not (as after
`get_surface_integrals()` on a fresh mesh), `scale(2)` scales the vertices
yet leaves the now-stale surface integrals in the cache. -/
theorem scale_keeps_stale_surface_integrals :
    hasSurfaceIntegrals (readSurfaceIntegrals exTri).2 = true ∧
    hasFacesProperties (readSurfaceIntegrals exTri).2 = false ∧
    (scale (readSurfaceIntegrals exTri).2 2).map hasSurfaceIntegrals
      = Except.ok true ∧
    (scale (readSurfaceIntegrals exTri).2 2).map MState.vertices
      = Except.ok (exTri.vertices.map (V3.smul 2)) :=
  ⟨rfl, rfl, rfl, rfl⟩

theorem flipNormals_vertices (s : MState) : (flipNormals s).vertices = s.vertices := by
  unfold flipNormals
  dsimp only
  split <;> split <;> rfl

theorem flipNormals_faces (s : MState) : (flipNormals s).faces = s.faces.map Face.rev := by
  unfold flipNormals
  dsimp only
  split <;> split <;> rfl

theorem mirror_vertices (s : MState) (p : MPlane) :
    (mirror s p).vertices
      = s.vertices.map (fun v => v - V3.smul (2 * (V3.dot v p.normal - p.c)) p.normal) := by
  unfold mirror
  dsimp only
  rw [flipNormals_vertices]

theorem mirror_faces (s : MState) (p : MPlane) :
    (mirror s p).faces = s.faces.map Face.rev := by
  unfold mirror
  dsimp only
  rw [flipNormals_faces]

theorem mirror_point_involutive (n : V3 ℚ) (c : ℚ) (h : V3.dot n n = 1) (v : V3 ℚ) :
    (v - V3.smul (2 * (V3.dot v n - c)) n)
        - V3.smul (2 * (V3.dot (v - V3.smul (2 * (V3.dot v n - c)) n) n - c)) n = v := by
  obtain ⟨vx, vy, vz⟩ := v
  obtain ⟨nx, ny, nz⟩ := n
  simp only [V3.dot, V3.smul, V3.sub_def, V3.mk.injEq] at h ⊢
  refine ⟨?_, ?_, ?_⟩
  · linear_combination (4 * (vx * nx + vy * ny + vz * nz - c) * nx) * h
  · linear_combination (4 * (vx * nx + vy * ny + vz * nz - c) * ny) * h
  · linear_combination (4 * (vx * nx + vy * ny + vz * nz - c) * nz) * h

theorem rev_rev (f : Face) : f.rev.rev = f := by
  cases f
  rfl

/-- **C8.** For every mesh state and every plane with a unit normal, applying
`mirror(plane)` twice restores the original vertex array (the pointwise
reflection `v - 2*(v·n - c)*n` is an involution when `n·n = 1`) and the
original face array (`flip_normals` reverses every face row, and two
reversals are the identity). -/
theorem mirror_mirror_roundtrip (s : MState) (p : MPlane)
    (h : V3.dot p.normal p.normal = 1) :
    (mirror (mirror s p) p).vertices = s.vertices ∧
    (mirror (mirror s p) p).faces = s.faces := by
  constructor
  · rw [mirror_vertices, mirror_vertices, List.map_map]
    have hg : ((fun v => v - V3.smul (2 * (V3.dot v p.normal - p.c)) p.normal) ∘
        (fun v => v - V3.smul (2 * (V3.dot v p.normal - p.c)) p.normal)) = id := by
      funext v
      exact mirror_point_involutive p.normal p.c h v
    rw [hg, List.map_id]
  · rw [mirror_faces, mirror_faces, List.map_map]
    have hg : (Face.rev ∘ Face.rev) = id := by
      funext f
      exact rev_rev f
    rw [hg, List.map_id]

/-- Witness for **C8**: the plane `z = 5` has a unit normal, and mirroring the
one-triangle example twice about it restores its vertex and face arrays. -/
theorem mirror_mirror_roundtrip_witness :
    V3.dot (⟨0, 0, 1⟩ : V3 ℚ) ⟨0, 0, 1⟩ = 1 ∧
    (mirror (mirror exTri ⟨⟨0, 0, 1⟩, 5⟩) ⟨⟨0, 0, 1⟩, 5⟩).vertices = exTri.vertices ∧
    (mirror (mirror exTri ⟨⟨0, 0, 1⟩, 5⟩) ⟨⟨0, 0, 1⟩, 5⟩).faces = exTri.faces :=
  ⟨by simp [V3.dot],
   (mirror_mirror_roundtrip exTri ⟨⟨0, 0, 1⟩, 5⟩ (by simp [V3.dot])).1,
   (mirror_mirror_roundtrip exTri ⟨⟨0, 0, 1⟩, 5⟩ (by simp [V3.dot])).2⟩

theorem length_filter_bool_partition {α : Type} (p : α → Bool) (l : List α) :
    (l.filter p).length + (l.filter (fun a => !(p a))).length = l.length := by
  induction l with
  | nil => rfl
  | cons a t ih =>
      cases hpa : p a <;> simp [List.filter_cons, hpa] <;> omega

/-- The face areas `_faces_properties` computes for `exDeg`. -/
theorem exDeg_areas :
    (computeFacesProps exDeg.vertices exDeg.faces).areas = [0, 1 / 2, 1 / 2] := by
  simp only [computeFacesProps, exDeg, faceProps, triProps, Face.isTriangle,
    V3.toR, V3.cross, V3.sub_def, V3.dot, rnorm, List.map_cons, List.map_nil,
    List.getD_cons_zero, List.getD_cons_succ]
  norm_num [Real.sqrt_one, Real.sqrt_zero]

/-- **C9.** The classification identity
`nb_triangles + nb_quadrangles == nb_faces` holds on any freshly classified
face array (the triangle test partitions the face indices), but it is *not*
preserved by every mutating operation: `remove_degenerated_faces` caches the
classification (via the `faces_areas` read), replaces `_faces` by a strict
subset, and removes only the face-geometry keys, so the stale cached
classification afterwards counts `3 + 0 ≠ 2` faces on `exDeg`. -/
theorem nb_triangles_add_nb_quadrangles :
    (∀ faces : List Face,
      (trianglesIds faces).length + (quadranglesIds faces).length = faces.length) ∧
    nb_triangles (removeDegeneratedFaces exDeg (1 / 100000)) = 3 ∧
    nb_quadrangles (removeDegeneratedFaces exDeg (1 / 100000)) = 0 ∧
    nb_faces (removeDegeneratedFaces exDeg (1 / 100000)) = 2 ∧
    nb_triangles (removeDegeneratedFaces exDeg (1 / 100000))
        + nb_quadrangles (removeDegeneratedFaces exDeg (1 / 100000))
      ≠ nb_faces (removeDegeneratedFaces exDeg (1 / 100000)) := by
  have hnf : nb_faces (removeDegeneratedFaces exDeg (1 / 100000)) = 2 := by
    have hfaces : (removeDegeneratedFaces exDeg (1 / 100000)).faces
        = (List.range 3).filterMap (fun i =>
            if (computeFacesProps exDeg.vertices exDeg.faces).areas.getD i 0
                < (computeFacesProps exDeg.vertices exDeg.faces).areas.sum
                  / ((computeFacesProps exDeg.vertices exDeg.faces).areas.length : ℝ)
                  * (1 / 100000)
            then none else some (exDeg.faces.getD i default)) := rfl
    rw [show nb_faces (removeDegeneratedFaces exDeg (1 / 100000))
          = (removeDegeneratedFaces exDeg (1 / 100000)).faces.length from rfl, hfaces,
      exDeg_areas]
    have hthr : ([0, 1 / 2, 1 / 2] : List ℝ).sum
        / (([0, 1 / 2, 1 / 2] : List ℝ).length : ℝ) * (1 / 100000) = 1 / 300000 := by
      norm_num
    rw [hthr, show List.range 3 = [0, 1, 2] from rfl]
    simp only [List.filterMap_cons, List.filterMap_nil,
      List.getD_cons_zero, List.getD_cons_succ]
    rw [if_pos (by norm_num : (0 : ℝ) < 1 / 300000),
      if_neg (by norm_num : ¬((1 / 2 : ℝ) < 1 / 300000)),
      if_neg (by norm_num : ¬((1 / 2 : ℝ) < 1 / 300000))]
    rfl
  refine ⟨?_, rfl, rfl, hnf, ?_⟩
  · intro faces
    have h := length_filter_bool_partition
      (fun i => (faces.getD i default).isTriangle) (List.range faces.length)
    simpa [trianglesIds, quadranglesIds, List.length_range] using h
  · rw [hnf, show nb_triangles (removeDegeneratedFaces exDeg (1 / 100000)) = 3 from rfl,
      show nb_quadrangles (removeDegeneratedFaces exDeg (1 / 100000)) = 0 from rfl]
    omega

/-- **C4.** The `volume` property — `(normals.T * sigma_0_2).sum() / 3.` — equals
one third of the sum over all faces of the dot product of the face's unit
normal with the face's first-moment surface integrals (rows 0..2 of the
15-row per-face surface-integral array). -/
theorem volume_eq_third_sum_normals_dot_first_moments
    (verts : List (V3 ℚ)) (faces : List Face) :
    volume verts faces
      = (1 / 3) * ∑ f ∈ Finset.range faces.length,
          V3.dot ((computeFacesProps verts faces).normals.getD f default)
            ⟨(computeSurfaceIntegrals verts faces).getD f (fun _ => 0) 0,
             (computeSurfaceIntegrals verts faces).getD f (fun _ => 0) 1,
             (computeSurfaceIntegrals verts faces).getD f (fun _ => 0) 2⟩ := by
  unfold volume
  rw [Finset.sum_comm]
  have hface : ∀ f ∈ Finset.range faces.length,
      (∑ k : Fin 3,
        V3.comp ((computeFacesProps verts faces).normals.getD f default) k
          * (computeSurfaceIntegrals verts faces).getD f (fun _ => 0)
              (⟨k.val, by omega⟩ : Fin 15))
        = V3.dot ((computeFacesProps verts faces).normals.getD f default)
            ⟨(computeSurfaceIntegrals verts faces).getD f (fun _ => 0) 0,
             (computeSurfaceIntegrals verts faces).getD f (fun _ => 0) 1,
             (computeSurfaceIntegrals verts faces).getD f (fun _ => 0) 2⟩ := by
    intro f _
    rw [Fin.sum_univ_three]
    simp [V3.comp, V3.dot, Fin.ext_iff]
  rw [Finset.sum_congr rfl hface]
  ring

/-- The (real-cast) coordinates of vertex `i` of a vertex array. -/
def vAt (verts : List (V3 ℚ)) (i : ℕ) : V3 ℝ := (verts.getD i default).toR

theorem getD_map_lt {α β : Type} (g : α → β) (l : List α) (f : ℕ)
    (hf : f < l.length) (d : β) (da : α) : (l.map g).getD f d = g (l.getD f da) := by
  rw [List.getD_eq_getElem?_getD, List.getD_eq_getElem?_getD, List.getElem?_map,
    List.getElem?_eq_getElem hf]
  rfl

theorem cross_swap_rnorm (a b : V3 ℝ) : rnorm (V3.cross a b) = rnorm (V3.cross b a) := by
  unfold rnorm
  apply congrArg Real.sqrt
  simp only [V3.cross, V3.dot]
  ring

/-- **C5.** For every quadrangle face, the cached face geometry satisfies the
spec formulas: the area is the sum of the areas of the two diagonal-split
triangles `(v0,v1,v2)` and `(v0,v2,v3)` (not the parallelogram formula), the
centroid is the area-weighted average of the two triangle centroids, and the
normal is `cross(v2-v0, v3-v1)` normalized to unit length. -/
theorem quadrangle_face_geometry (verts : List (V3 ℚ)) (faces : List Face) (f : ℕ)
    (hf : f < faces.length) (hq : (faces.getD f default).isTriangle = false) :
    (computeFacesProps verts faces).areas.getD f 0
      = rnorm (V3.cross (vAt verts (faces.getD f default).s1 - vAt verts (faces.getD f default).s0)
                        (vAt verts (faces.getD f default).s2 - vAt verts (faces.getD f default).s0)) / 2
        + rnorm (V3.cross (vAt verts (faces.getD f default).s2 - vAt verts (faces.getD f default).s0)
                          (vAt verts (faces.getD f default).s3 - vAt verts (faces.getD f default).s0)) / 2 ∧
    (computeFacesProps verts faces).centers.getD f default
      = V3.smul (1 /
          (rnorm (V3.cross (vAt verts (faces.getD f default).s1 - vAt verts (faces.getD f default).s0)
                           (vAt verts (faces.getD f default).s2 - vAt verts (faces.getD f default).s0)) / 2
           + rnorm (V3.cross (vAt verts (faces.getD f default).s2 - vAt verts (faces.getD f default).s0)
                             (vAt verts (faces.getD f default).s3 - vAt verts (faces.getD f default).s0)) / 2))
          (V3.smul (rnorm (V3.cross (vAt verts (faces.getD f default).s1 - vAt verts (faces.getD f default).s0)
                           (vAt verts (faces.getD f default).s2 - vAt verts (faces.getD f default).s0)) / 2)
             (V3.smul (1 / 3) (vAt verts (faces.getD f default).s0
                + vAt verts (faces.getD f default).s1 + vAt verts (faces.getD f default).s2))
           + V3.smul (rnorm (V3.cross (vAt verts (faces.getD f default).s2 - vAt verts (faces.getD f default).s0)
                             (vAt verts (faces.getD f default).s3 - vAt verts (faces.getD f default).s0)) / 2)
             (V3.smul (1 / 3) (vAt verts (faces.getD f default).s0
                + vAt verts (faces.getD f default).s2 + vAt verts (faces.getD f default).s3))) ∧
    (computeFacesProps verts faces).normals.getD f default
      = V3.smul (1 / rnorm (V3.cross (vAt verts (faces.getD f default).s2 - vAt verts (faces.getD f default).s0)
                            (vAt verts (faces.getD f default).s3 - vAt verts (faces.getD f default).s1)))
          (V3.cross (vAt verts (faces.getD f default).s2 - vAt verts (faces.getD f default).s0)
                    (vAt verts (faces.getD f default).s3 - vAt verts (faces.getD f default).s1)) := by
  have hA : (computeFacesProps verts faces).areas.getD f 0
      = (faceProps verts (faces.getD f default)).1 :=
    getD_map_lt _ faces f hf _ default
  have hC : (computeFacesProps verts faces).centers.getD f default
      = (faceProps verts (faces.getD f default)).2.2 :=
    getD_map_lt _ faces f hf _ default
  have hN : (computeFacesProps verts faces).normals.getD f default
      = (faceProps verts (faces.getD f default)).2.1 :=
    getD_map_lt _ faces f hf _ default
  rw [hA, hC, hN]
  unfold faceProps
  rw [hq]
  simp only [Bool.false_eq_true, if_false]
  unfold quadProps vAt
  dsimp only
  refine ⟨?_, ?_, ?_⟩
  · rw [cross_swap_rnorm
      ((verts.getD (faces.getD f default).s3 default).toR - (verts.getD (faces.getD f default).s0 default).toR)
      ((verts.getD (faces.getD f default).s2 default).toR - (verts.getD (faces.getD f default).s0 default).toR)]
    ring
  · rw [cross_swap_rnorm
      ((verts.getD (faces.getD f default).s3 default).toR - (verts.getD (faces.getD f default).s0 default).toR)
      ((verts.getD (faces.getD f default).s2 default).toR - (verts.getD (faces.getD f default).s0 default).toR)]
    rw [V3.ext_iff]
    simp only [V3.smul, V3.add_def]
    refine ⟨by ring, by ring, by ring⟩
  · rfl

theorem readTQ_val_of (s : MState)
    (hc : s.cache.tq = none ∨ s.cache.tq = some (trianglesIds s.faces, quadranglesIds s.faces)) :
    (readTQ s).1 = (trianglesIds s.faces, quadranglesIds s.faces) := by
  rcases hc with h | h <;> unfold readTQ <;> rw [h]

theorem mem_quadranglesIds (faces : List Face) (i : ℕ) :
    i ∈ quadranglesIds faces ↔ i < faces.length ∧ (faces.getD i default).isTriangle = false := by
  simp [quadranglesIds, List.mem_filter, List.mem_range, Bool.not_eq_true']

theorem mem_trianglesIds (faces : List Face) (i : ℕ) :
    i ∈ trianglesIds faces ↔ i < faces.length ∧ (faces.getD i default).isTriangle = true := by
  simp [trianglesIds, List.mem_filter, List.mem_range]

theorem getD_range (n i : ℕ) (hi : i < n) : (List.range n).getD i 0 = i := by
  rw [List.getD_eq_getElem?_getD, List.getElem?_range hi]
  rfl

/-- **C7.** `triangulate_quadrangles` rewrites each quadrangle `(q0,q1,q2,q3)`
in place to the triangle `(q0,q2,q3)` and appends the triangle `(q0,q1,q2)`
after the existing faces (one appended face per quadrangle, in quadrangle-id
order), leaves triangle faces unchanged, and clears the entire cache; on an
all-quadrangle mesh the face count exactly doubles and every resulting face
satisfies `face[0] == face[3]`. -/
theorem triangulate_quadrangles_spec (s : MState)
    (hc : s.cache.tq = none ∨ s.cache.tq = some (trianglesIds s.faces, quadranglesIds s.faces)) :
    (triangulateQuadrangles s).faces.length
        = s.faces.length + (quadranglesIds s.faces).length ∧
    (∀ i, i < s.faces.length → (s.faces.getD i default).isTriangle = true →
      (triangulateQuadrangles s).faces.getD i default = s.faces.getD i default) ∧
    (∀ i, i < s.faces.length → (s.faces.getD i default).isTriangle = false →
      (triangulateQuadrangles s).faces.getD i default
        = ⟨(s.faces.getD i default).s0, (s.faces.getD i default).s2,
           (s.faces.getD i default).s3, (s.faces.getD i default).s0⟩) ∧
    (∀ k, k < (quadranglesIds s.faces).length →
      (triangulateQuadrangles s).faces.getD (s.faces.length + k) default
        = ⟨(s.faces.getD ((quadranglesIds s.faces).getD k 0) default).s0,
           (s.faces.getD ((quadranglesIds s.faces).getD k 0) default).s1,
           (s.faces.getD ((quadranglesIds s.faces).getD k 0) default).s2,
           (s.faces.getD ((quadranglesIds s.faces).getD k 0) default).s0⟩) ∧
    (triangulateQuadrangles s).cache = Cache.empty ∧
    ((quadranglesIds s.faces).length = s.faces.length →
      (triangulateQuadrangles s).faces.length = 2 * s.faces.length ∧
      ∀ fc ∈ (triangulateQuadrangles s).faces, fc.isTriangle = true) := by
  have hfeq : (triangulateQuadrangles s).faces
      = ((List.range s.faces.length).map (fun i =>
            if i ∈ quadranglesIds s.faces then
              Face.mk (s.faces.getD i default).s0 (s.faces.getD i default).s2
                      (s.faces.getD i default).s3 (s.faces.getD i default).s0
            else s.faces.getD i default))
        ++ (quadranglesIds s.faces).map (fun i =>
            Face.mk (s.faces.getD i default).s0 (s.faces.getD i default).s1
                    (s.faces.getD i default).s2 (s.faces.getD i default).s0) := by
    unfold triangulateQuadrangles
    dsimp only
    rw [readTQ_val_of s hc]
  have hlen : (triangulateQuadrangles s).faces.length
      = s.faces.length + (quadranglesIds s.faces).length := by
    rw [hfeq, List.length_append, List.length_map, List.length_map, List.length_range]
  have hleft : ∀ i, i < s.faces.length →
      (triangulateQuadrangles s).faces.getD i default
        = if i ∈ quadranglesIds s.faces then
            Face.mk (s.faces.getD i default).s0 (s.faces.getD i default).s2
                    (s.faces.getD i default).s3 (s.faces.getD i default).s0
          else s.faces.getD i default := by
    intro i hi
    rw [hfeq, List.getD_append _ _ _ _ (by simpa using hi),
      getD_map_lt _ _ _ (by simpa using hi) _ 0, getD_range _ _ hi]
  refine ⟨hlen, ?_, ?_, ?_, rfl, ?_⟩
  · intro i hi ht
    rw [hleft i hi, if_neg]
    intro hmem
    rw [((mem_quadranglesIds s.faces i).1 hmem).2] at ht
    exact Bool.false_ne_true ht
  · intro i hi hq
    rw [hleft i hi, if_pos ((mem_quadranglesIds s.faces i).2 ⟨hi, hq⟩)]
  · intro k hk
    rw [hfeq, List.getD_append_right _ _ _ _ (by simp)]
    have : s.faces.length + k - ((List.range s.faces.length).map (fun i =>
        if i ∈ quadranglesIds s.faces then
          Face.mk (s.faces.getD i default).s0 (s.faces.getD i default).s2
                  (s.faces.getD i default).s3 (s.faces.getD i default).s0
        else s.faces.getD i default)).length = k := by
      simp
    rw [this, getD_map_lt _ _ _ hk _ 0]
  · intro hall
    have hmemq : ∀ i, i < s.faces.length → i ∈ quadranglesIds s.faces := by
      intro i hi
      by_contra hnot
      have hti : (s.faces.getD i default).isTriangle = true := by
        rcases Bool.eq_false_or_eq_true (s.faces.getD i default).isTriangle with hb | hb
        · exact hb
        · exact absurd ((mem_quadranglesIds s.faces i).2 ⟨hi, hb⟩) hnot
      have hmem : i ∈ trianglesIds s.faces := (mem_trianglesIds s.faces i).2 ⟨hi, hti⟩
      have hpart := length_filter_bool_partition
        (fun j => (s.faces.getD j default).isTriangle) (List.range s.faces.length)
      have h1 : (trianglesIds s.faces).length + (quadranglesIds s.faces).length
          = s.faces.length := by
        simpa [trianglesIds, quadranglesIds, List.length_range] using hpart
      have htlen : (trianglesIds s.faces).length = 0 := by omega
      rw [List.length_eq_zero] at htlen
      rw [htlen] at hmem
      exact absurd hmem (List.not_mem_nil i)
    constructor
    · rw [hlen, hall]
      ring
    · intro fc hmem
      rw [hfeq] at hmem
      rcases List.mem_append.1 hmem with hml | hmr
      · rcases List.mem_map.1 hml with ⟨i, hirange, hfc⟩
        have hi : i < s.faces.length := List.mem_range.1 hirange
        rw [if_pos (hmemq i hi)] at hfc
        rw [← hfc]
        simp [Face.isTriangle]
      · rcases List.mem_map.1 hmr with ⟨i, _, hfc⟩
        rw [← hfc]
        simp [Face.isTriangle]

/-- Witness for **C7**: triangulating the all-quadrangle unit-square mesh
doubles the face count and leaves only triangle-shaped faces. -/
theorem triangulate_quadrangles_witness :
    exQuad.cache.tq = none ∧
    (quadranglesIds exQuad.faces).length = exQuad.faces.length ∧
    (triangulateQuadrangles exQuad).faces.length = 2 * exQuad.faces.length ∧
    ∀ fc ∈ (triangulateQuadrangles exQuad).faces, fc.isTriangle = true := by
  have h := (triangulate_quadrangles_spec exQuad (Or.inl rfl)).2.2.2.2.2 (by decide)
  exact ⟨rfl, by decide, h.1, h.2⟩

/-- **C6 counterexample.** The index array `extract_faces` returns with
`return_index=True` is *not* the old-to-new vertex mapping: on `exM4`,
extracting face 0 (which references old vertices 1 and 3) returns `[1, 3]`;
read as an old-to-new map at old vertex 1 it would have to give that vertex's
new index `0` (the extracted face stores `0` in that slot), but it gives `3`. -/
theorem extract_faces_index_not_old_to_new :
    ¬ ((extractFaces exM4 [0]).2.getD (exM4.faces.getD 0 default).s0 0
        = ((extractFaces exM4 [0]).1.faces.getD 0 default).s0) := by
  decide

theorem list_getD_mem {α : Type} (l : List α) (n : ℕ) (d : α) (hn : n < l.length) :
    l.getD n d ∈ l := by
  rw [List.getD_eq_getElem?_getD, List.getElem?_eq_getElem hn]
  exact List.getElem_mem hn

theorem idV_getD_indexOf (s : MState) (ids : List ℕ) (o : ℕ)
    (ho : o < s.vertices.length) (hm : extractMask s.faces ids o = true) :
    (extractIdV s ids).getD ((extractIdV s ids).indexOf o) 0 = o := by
  have hmem : o ∈ extractIdV s ids := by
    simp only [extractIdV, List.mem_filter, List.mem_range, nb_vertices]
    exact ⟨ho, hm⟩
  have hlt : (extractIdV s ids).indexOf o < (extractIdV s ids).length :=
    List.indexOf_lt_length.2 hmem
  rw [List.getD_eq_getElem?_getD, List.getElem?_eq_getElem hlt]
  simp [List.getElem_indexOf]

theorem newId_back (s : MState) (ids : List ℕ) (o : ℕ)
    (ho : o < s.vertices.length) (hm : extractMask s.faces ids o = true) :
    (extractIdV s ids).getD (extractNewId s ids o) 0 = o := by
  unfold extractNewId
  rw [if_pos hm]
  exact idV_getD_indexOf s ids o ho hm

theorem mask_of_slot (s : MState) (ids : List ℕ) (j : ℕ) (hj : j < ids.length)
    (o : ℕ) (ho : o ∈ faceList (s.faces.getD (ids.getD j 0) default)) :
    extractMask s.faces ids o = true := by
  unfold extractMask
  rw [List.any_eq_true]
  refine ⟨ids.getD j 0, list_getD_mem ids j 0 hj, ?_⟩
  unfold faceList at ho
  simp only [List.mem_cons, List.not_mem_nil, or_false] at ho
  rcases ho with h | h | h | h <;> simp [h]

/-- **C6 (amended).** `extract_faces` builds a new mesh with exactly the
vertices referenced by the selected faces, compacted in ascending order and
renumbered consistently (mapping each new face entry back through the
returned index array recovers the original face entry), leaving the input
untouched (the embedding is a pure function of the input state); the index
array returned with `return_index=True` is the **new-to-old** mapping: entry
`k` is the original index of the extracted mesh's vertex `k`. -/
theorem extract_faces_spec (s : MState) (ids : List ℕ)
    (hids : ∀ i ∈ ids, i < s.faces.length)
    (hfaces : ∀ fc ∈ s.faces, fc.s0 < s.vertices.length ∧ fc.s1 < s.vertices.length
      ∧ fc.s2 < s.vertices.length ∧ fc.s3 < s.vertices.length) :
    (extractFaces s ids).1.faces.length = ids.length ∧
    (∀ v, v ∈ (extractFaces s ids).2
      ↔ v < s.vertices.length ∧ ∃ i ∈ ids, v ∈ faceList (s.faces.getD i default)) ∧
    List.Pairwise (· < ·) (extractFaces s ids).2 ∧
    (extractFaces s ids).1.vertices.length = (extractFaces s ids).2.length ∧
    (∀ k, k < (extractFaces s ids).2.length →
      (extractFaces s ids).1.vertices.getD k default
        = s.vertices.getD ((extractFaces s ids).2.getD k 0) default) ∧
    (∀ j, j < ids.length →
      (faceList ((extractFaces s ids).1.faces.getD j default)).map
          (fun e => (extractFaces s ids).2.getD e 0)
        = faceList (s.faces.getD (ids.getD j 0) default)) := by
  refine ⟨?_, ?_, ?_, ?_, ?_, ?_⟩
  · simp [extractFaces]
  · intro v
    show v ∈ extractIdV s ids ↔ _
    simp only [extractIdV, List.mem_filter, List.mem_range, nb_vertices]
    constructor
    · rintro ⟨hv, hm⟩
      refine ⟨hv, ?_⟩
      rw [extractMask, List.any_eq_true] at hm
      rcases hm with ⟨i, hi, hslot⟩
      refine ⟨i, hi, ?_⟩
      unfold faceList
      simp only [Bool.or_eq_true, beq_iff_eq] at hslot
      rcases hslot with ((h | h) | h) | h <;> simp [h]
    · rintro ⟨hv, i, hi, hslot⟩
      refine ⟨hv, ?_⟩
      rw [extractMask, List.any_eq_true]
      refine ⟨i, hi, ?_⟩
      unfold faceList at hslot
      simp only [List.mem_cons, List.not_mem_nil, or_false] at hslot
      rcases hslot with h | h | h | h <;> simp [h]
  · exact List.Pairwise.filter _ (List.pairwise_lt_range _)
  · simp [extractFaces, extractIdV]
  · intro k hk
    have hk1 : k < (extractIdV s ids).length := hk
    show ((extractIdV s ids).map (fun i => s.vertices.getD i default)).getD k default = _
    rw [getD_map_lt _ _ _ hk1 _ 0]
    rfl
  · intro j hj
    have hface : (extractFaces s ids).1.faces.getD j default
        = Face.mk (extractNewId s ids ((s.faces.getD (ids.getD j 0) default)).s0)
                  (extractNewId s ids ((s.faces.getD (ids.getD j 0) default)).s1)
                  (extractNewId s ids ((s.faces.getD (ids.getD j 0) default)).s2)
                  (extractNewId s ids ((s.faces.getD (ids.getD j 0) default)).s3) := by
      show (ids.map _).getD j default = _
      rw [getD_map_lt _ _ _ hj _ 0]
    have hmemF : s.faces.getD (ids.getD j 0) default ∈ s.faces :=
      list_getD_mem s.faces (ids.getD j 0) default (hids _ (list_getD_mem ids j 0 hj))
    obtain ⟨h0, h1, h2, h3⟩ := hfaces _ hmemF
    rw [hface]
    unfold faceList
    simp only [List.map_cons, List.map_nil]
    rw [show (extractFaces s ids).2 = extractIdV s ids from rfl]
    rw [newId_back s ids _ h0 (mask_of_slot s ids j hj _ (by unfold faceList; simp)),
      newId_back s ids _ h1 (mask_of_slot s ids j hj _ (by unfold faceList; simp)),
      newId_back s ids _ h2 (mask_of_slot s ids j hj _ (by unfold faceList; simp)),
      newId_back s ids _ h3 (mask_of_slot s ids j hj _ (by unfold faceList; simp))]

theorem readTQ_cache_conn (s : MState) : ((readTQ s).2).cache.conn = s.cache.conn := by
  unfold readTQ
  cases s.cache.tq <;> rfl

theorem readTQ_cache_tq_isSome (s : MState) : ((readTQ s).2).cache.tq.isSome = true := by
  unfold readTQ
  cases htq : s.cache.tq with
  | some v =>
      dsimp only
      rw [htq]
      rfl
  | none => rfl

theorem readFacesProps_cache_conn (s : MState) :
    ((readFacesProps s).2).cache.conn = s.cache.conn := by
  unfold readFacesProps
  cases s.cache.facesProps with
  | some v => rfl
  | none =>
      dsimp only
      exact readTQ_cache_conn s

theorem readFacesProps_cache_tq_isSome (s : MState) (h : s.cache.tq.isSome = true) :
    ((readFacesProps s).2).cache.tq.isSome = true := by
  unfold readFacesProps
  cases s.cache.facesProps with
  | some v => exact h
  | none =>
      dsimp only
      exact readTQ_cache_tq_isSome s

theorem flipNormals_cache_conn (s : MState) : (flipNormals s).cache.conn = s.cache.conn := by
  unfold flipNormals removeSurfaceIntegrals
  dsimp only
  split <;> split <;> rfl

theorem flipNormals_cache_tq (s : MState) : (flipNormals s).cache.tq = s.cache.tq := by
  unfold flipNormals removeSurfaceIntegrals
  dsimp only
  split <;> split <;> rfl

/-- A `(ivertex, iadj_v)` pair whose incident-face intersection triggers the
fatal non-manifold branch of `_connectivity`: size neither 2 nor 1. -/
def pairBad (vf : List (Finset ℕ)) (p : ℕ × ℕ) : Prop :=
  ((vf.getD p.1 ∅) ∩ (vf.getD p.2 ∅)).card ≠ 2 ∧
  ((vf.getD p.1 ∅) ∩ (vf.getD p.2 ∅)).card ≠ 1

instance (vf : List (Finset ℕ)) (p : ℕ × ℕ) : Decidable (pairBad vf p) :=
  inferInstanceAs (Decidable (_ ∧ _))

theorem foldPairs_error (vf : List (Finset ℕ)) (faces : List Face) :
    ∀ (l : List (ℕ × ℕ)) (st : List (Finset ℕ) × List (ℕ × ℕ)),
      (∃ p ∈ l, pairBad vf p) →
      foldPairs vf faces l st = .error connErrMsg := by
  intro l
  induction l with
  | nil =>
      intro st h
      rcases h with ⟨p, hp, _⟩
      exact absurd hp (List.not_mem_nil p)
  | cons p t ih =>
      intro st h
      rcases h with ⟨q, hq, hbad⟩
      have hstep : foldPairs vf faces (p :: t) st
          = (match ffStep vf faces st p with
             | .ok st1 => foldPairs vf faces t st1
             | .error e => .error e) := rfl
      rcases List.mem_cons.1 hq with heq | hqt
      · subst heq
        rw [hstep]
        unfold ffStep
        rw [if_neg hbad.1, if_neg hbad.2]
      · by_cases hb1 : ((vf.getD p.1 ∅) ∩ (vf.getD p.2 ∅)).card = 2
        · rw [hstep]
          unfold ffStep
          rw [if_pos hb1]
          exact ih _ ⟨q, hqt, hbad⟩
        · by_cases hb2 : ((vf.getD p.1 ∅) ∩ (vf.getD p.2 ∅)).card = 1
          · rw [hstep]
            unfold ffStep
            rw [if_neg hb1, if_pos hb2]
            exact ih _ ⟨q, hqt, hbad⟩
          · rw [hstep]
            unfold ffStep
            rw [if_neg hb1, if_neg hb2]

/-- **C3.** If some pair of adjacent vertices has an incident-face intersection
of size other than 1 or 2 (an edge shared by more than 2 faces), the
`_connectivity` method raises the fatal `RuntimeError` and stores none of the
connectivity aggregates: the mesh state (vertex array, face array, and the
whole cache) is exactly as it was before the call, because
`__internals__.update` only runs after the whole computation succeeds. -/
theorem connectivity_nonmanifold_aborts (s : MState)
    (h : ∃ p ∈ pairList (nb_vertices s) (buildVVVF (nb_vertices s) s.faces).1,
          pairBad (buildVVVF (nb_vertices s) s.faces).2 p) :
    (connectivityMethod s).1 = s ∧ (connectivityMethod s).2 = some connErrMsg := by
  have herr : computeConnectivity (nb_vertices s) s.faces = .error connErrMsg := by
    unfold computeConnectivity
    dsimp only
    rw [foldPairs_error _ _ _ _ h]
  unfold connectivityMethod
  rw [herr]
  exact ⟨rfl, rfl⟩

/-- Witness for **C3**: three triangles all sharing the edge `(0, 1)` (their
incident-face intersection has size 3) make `_connectivity` abort with the
state unchanged. -/
theorem connectivity_nonmanifold_aborts_witness :
    (∃ p ∈ pairList (nb_vertices exNonManifold)
          (buildVVVF (nb_vertices exNonManifold) exNonManifold.faces).1,
        pairBad (buildVVVF (nb_vertices exNonManifold) exNonManifold.faces).2 p) ∧
    (connectivityMethod exNonManifold).1 = exNonManifold ∧
    (connectivityMethod exNonManifold).2 = some connErrMsg :=
  ⟨by decide,
   (connectivity_nonmanifold_aborts exNonManifold (by decide)).1,
   (connectivity_nonmanifold_aborts exNonManifold (by decide)).2⟩

/-- Witness for **C6 (amended)**: extracting face 0 of the unit-square mesh
satisfies the premises of `extract_faces_spec`, and hence its conclusion. -/
theorem extract_faces_spec_witness :
    ((∀ i ∈ ([0] : List ℕ), i < exQuad.faces.length) ∧
     (∀ fc ∈ exQuad.faces, fc.s0 < exQuad.vertices.length
        ∧ fc.s1 < exQuad.vertices.length ∧ fc.s2 < exQuad.vertices.length
        ∧ fc.s3 < exQuad.vertices.length)) ∧
    (extractFaces exQuad [0]).1.faces.length = ([0] : List ℕ).length :=
  ⟨⟨by decide, by decide⟩,
   (extract_faces_spec exQuad [0] (by decide) (by decide)).1⟩

theorem final_removal_facesProps (s4 : MState) :
    (if hasFacesProperties s4 then removeFacesProperties s4 else s4).cache.facesProps
      = none := by
  by_cases hfp : hasFacesProperties s4 = true
  · rw [if_pos hfp]
    rfl
  · rw [if_neg hfp]
    unfold hasFacesProperties at hfp
    cases hcc : s4.cache.facesProps with
    | none => rfl
    | some v =>
        rw [hcc] at hfp
        exact absurd rfl hfp

theorem final_removal_conn (s4 : MState) :
    (if hasFacesProperties s4 then removeFacesProperties s4 else s4).cache.conn
      = s4.cache.conn := by
  split <;> rfl

theorem final_removal_tq (s4 : MState) :
    (if hasFacesProperties s4 then removeFacesProperties s4 else s4).cache.tq
      = s4.cache.tq := by
  split <;> rfl

theorem healNormals_decompose (s : MState) (conn : Conn) (s1 : MState)
    (hrc : readConn s = some (conn, s1)) :
    ∃ s4 : MState,
      healNormals s = (if hasFacesProperties s4 then removeFacesProperties s4 else s4)
      ∧ (s4.cache.conn).isSome = true ∧ s4.cache.tq.isSome = true := by
  unfold healNormals
  rw [hrc]
  dsimp only
  refine ⟨_, rfl, ?_, ?_⟩
  · split
    · split
      · rw [flipNormals_cache_conn, readFacesProps_cache_conn]
        rfl
      · rw [readFacesProps_cache_conn]
        rfl
    · rfl
  · split
    · split
      · rw [flipNormals_cache_tq]
        exact readFacesProps_cache_tq_isSome _ (readTQ_cache_tq_isSome s1)
      · exact readFacesProps_cache_tq_isSome _ (readTQ_cache_tq_isSome s1)
    · exact readTQ_cache_tq_isSome s1

/-- **C10.** `heal_normals` destructively removes the traversed reverse edges
from the `f_f` sets held in the connectivity cache during flooding, and on
completion invalidates only the face-geometry (and, with it, surface-integral)
keys — never the connectivity or the classification.  Consequently, after
`heal_normals` the cached connectivity is still present (with the mutated,
asymmetric `f_f`), the face-geometry key is absent, and on the two-triangle
strip `exStrip` reading `ff` yields `[{1}, ∅]` — face 1 has lost its edge back
to face 0 — while recomputing `_connectivity` from the resulting face array
would yield the symmetric `[{1}, {0}]`. -/
theorem heal_normals_keeps_mutated_connectivity (s : MState)
    (h : (readConn s).isSome = true) :
    ((healNormals s).cache.conn).isSome = true ∧
    (healNormals s).cache.facesProps = none ∧
    ((healNormals s).cache.tq).isSome = true ∧
    (s = exStrip →
      (healNormals s).cache.conn.map Conn.ff = some [{1}, ∅] ∧
      (computeConnectivity (nb_vertices (healNormals s)) (healNormals s).faces).toOption.map
          Conn.ff
        = some [{1}, {0}] ∧
      (healNormals s).cache.conn.map Conn.ff
        ≠ (computeConnectivity (nb_vertices (healNormals s)) (healNormals s).faces).toOption.map
            Conn.ff ∧
      (∀ c, (healNormals s).cache.conn = some c →
        1 ∈ c.ff.getD 0 ∅ ∧ 0 ∉ c.ff.getD 1 ∅)) := by
  obtain ⟨⟨conn, s1⟩, hrc⟩ := Option.isSome_iff_exists.mp h
  obtain ⟨s4, heq, hconn, htq⟩ := healNormals_decompose s conn s1 hrc
  refine ⟨?_, ?_, ?_, ?_⟩
  · rw [heq, final_removal_conn]
    exact hconn
  · rw [heq]
    exact final_removal_facesProps s4
  · rw [heq, final_removal_tq]
    exact htq
  · intro hst
    subst hst
    have hffmap : (healNormals exStrip).cache.conn.map Conn.ff = some [{1}, ∅] := by decide
    refine ⟨hffmap, by decide, by decide, ?_⟩
    intro c hc
    rw [hc] at hffmap
    have hcff : c.ff = [{1}, ∅] := by
      simpa using hffmap
    rw [hcff]
    decide

/-- Witness for **C10**: the open two-triangle strip satisfies the premise of
`heal_normals_keeps_mutated_connectivity`, and after healing it the cached
face/face adjacency is the mutated `[{1}, ∅]`. -/
theorem heal_normals_keeps_mutated_connectivity_witness :
    (readConn exStrip).isSome = true ∧
    ((healNormals exStrip).cache.conn).isSome = true ∧
    (healNormals exStrip).cache.conn.map Conn.ff = some [{1}, ∅] :=
  ⟨by decide,
   (heal_normals_keeps_mutated_connectivity exStrip (by decide)).1,
   ((heal_normals_keeps_mutated_connectivity exStrip (by decide)).2.2.2 rfl).1⟩

/-- Witness for **C5**: the unit-square quadrangle mesh satisfies the premises
of `quadrangle_face_geometry`, and hence its conclusion. -/
theorem quadrangle_face_geometry_witness :
    (0 < exQuad.faces.length ∧ (exQuad.faces.getD 0 default).isTriangle = false) ∧
    (computeFacesProps exQuad.vertices exQuad.faces).normals.getD 0 default
      = V3.smul (1 / rnorm (V3.cross
            (vAt exQuad.vertices (exQuad.faces.getD 0 default).s2
              - vAt exQuad.vertices (exQuad.faces.getD 0 default).s0)
            (vAt exQuad.vertices (exQuad.faces.getD 0 default).s3
              - vAt exQuad.vertices (exQuad.faces.getD 0 default).s1)))
          (V3.cross
            (vAt exQuad.vertices (exQuad.faces.getD 0 default).s2
              - vAt exQuad.vertices (exQuad.faces.getD 0 default).s0)
            (vAt exQuad.vertices (exQuad.faces.getD 0 default).s3
              - vAt exQuad.vertices (exQuad.faces.getD 0 default).s1)) :=
  ⟨⟨by decide, by decide⟩,
   (quadrangle_face_geometry exQuad.vertices exQuad.faces 0 (by decide) (by decide)).2.2⟩
